import Mathlib

/-
Verification of the appleseed-max plugin fragment:
  src/appleseed-renderer/tilecallback.cpp
  src/appleseed-renderer/appleseedrendererparamdlg.cpp

Modelling conventions.

Pixels: BMM_Color_fl and foundation::Color4f are quadruples of 32-bit
floats.  No claim performs floating-point arithmetic: pixel values are
only produced (by the renderer), converted (by opaque library routines)
and copied.  We therefore carry components as integers standing for
uninterpreted float values; the only concrete color appearing in the
code is the bracket color (1.0, 1.0, 1.0, 1.0), represented exactly.

Sizes and coordinates: size_t values are modelled as Nat, int values as
Int.  The asserts in post_render_tile / post_render equate the canvas
dimensions with the bitmap dimensions, which 3ds Max stores as C ints,
so every coordinate that reaches a static_cast<int> or
static_cast<LONG> in this file is below 2^31 and no truncation can
occur; the casts are therefore modelled as the identity embedding of
Nat into Int.

Effects: the Bitmap and the display window are external 3ds Max
objects.  The bitmap is modelled as a total function from integer
coordinates to colors; calls into the host (Bitmap::PutPixels with
count 1, Bitmap::RefreshWindow) are additionally recorded in an event
trace, and an instrumentation event marks each execution of
TileCallback::blit_tile so that "blit_tile is performed" is observable.

The color pipeline: the Tile copy constructor with PixelFormatFloat
(conversion to 32-bit floating point) and
Frame::transform_to_output_color_space are routines of the external
appleseed library; both act pixelwise, and are modelled as abstract
per-pixel functions carried by the frame.
-/

/-- Color quadruple standing for BMM_Color_fl / foundation::Color4f.
Components are uninterpreted float values carried as integers. -/
structure Color4 where
  r : Int
  g : Int
  b : Int
  a : Int
deriving DecidableEq, Repr

/-- The bracket color BMM_Color_fl(1.0f, 1.0f, 1.0f, 1.0f): white. -/
def BracketColor : Color4 := ⟨1, 1, 1, 1⟩

/-- A Win32 RECT as produced by make_rect.  All rectangles built by this
file have nonnegative coordinates below 2^31 (see the modelling note
above), so the LONG fields are carried as Nat. -/
structure RECT where
  left : Nat
  top : Nat
  right : Nat
  bottom : Nat
deriving DecidableEq, Repr

/-- make_rect (tilecallback.cpp): left = x, top = y, right = x + width,
bottom = y + height. -/
def make_rect (x y width height : Nat) : RECT :=
  { left := x, top := y, right := x + width, bottom := y + height }

/-- Observable interactions of TileCallback with the host, plus the
instrumentation event marking each execution of blit_tile. -/
inductive Event where
  | putPixel (x y : Int) (c : Color4)
  | blit (tileX tileY : Nat)
  | refreshRect (r : RECT)
  | refreshFull
deriving DecidableEq, Repr

/-- State touched by the tile callback: the host bitmap, the shared
rendered-tile counter *m_rendered_tile_count, and the event trace. -/
structure CBState where
  bitmap : Int × Int → Color4
  rendered : Nat
  trace : List Event

/-- Bitmap::PutPixels with count 1: store one pixel and record it. -/
def putPixels (st : CBState) (x y : Int) (c : Color4) : CBState :=
  { bitmap := fun p => if p = (x, y) then c else st.bitmap p
    rendered := st.rendered
    trace := st.trace ++ [Event.putPixel x y c] }

/-- The step s = (length > 0 ? 1 : -1) of draw_hline / draw_vline. -/
def lineStep (length : Int) : Int := if length > 0 then 1 else -1

/-- Loop of draw_hline: for (int i = x; i != x + length; i += s).
Since i = x + s * k after k iterations and s * natAbs length = length
(when length is 0 the guard fails at once), the loop exits exactly
after natAbs length iterations; that trip count is the structural
fuel of this definition. -/
def hlineLoop (y : Int) (c : Color4) (s : Int) : Nat → Int → CBState → CBState
  | 0, _, st => st
  | Nat.succ n, i, st => hlineLoop y c s n (i + s) (putPixels st i y c)

/-- draw_hline (tilecallback.cpp). -/
def draw_hline (st : CBState) (x y length : Int) (c : Color4) : CBState :=
  hlineLoop y c (lineStep length) length.natAbs x st

/-- Loop of draw_vline, same trip count argument as hlineLoop. -/
def vlineLoop (x : Int) (c : Color4) (s : Int) : Nat → Int → CBState → CBState
  | 0, _, st => st
  | Nat.succ n, i, st => vlineLoop x c s n (i + s) (putPixels st x i c)

/-- draw_vline (tilecallback.cpp). -/
def draw_vline (st : CBState) (x y length : Int) (c : Color4) : CBState :=
  vlineLoop x c (lineStep length) length.natAbs y st

/-- draw_bracket (tilecallback.cpp): four corners, a horizontal and a
vertical segment each, the right/bottom ones drawn with negative
length, i.e. inward. -/
def draw_bracket (st : CBState) (x y width height bracket_extent : Int)
    (c : Color4) : CBState :=
  let w := min bracket_extent width
  let h := min bracket_extent height
  let st1 := draw_vline (draw_hline st x y w c) x y h c
  let st2 := draw_vline (draw_hline st1 (x + width - 1) y (-w) c)
    (x + width - 1) y h c
  let st3 := draw_vline (draw_hline st2 x (y + height - 1) w c)
    x (y + height - 1) (-h) c
  draw_vline (draw_hline st3 (x + width - 1) (y + height - 1) (-w) c)
    (x + width - 1) (y + height - 1) (-h) c

/-- TileCallback::pre_render: draw a white bracket of extent 5 around
the tile, then refresh the tile rectangle of the display window. -/
def pre_render (st : CBState) (x y width height : Nat) : CBState :=
  let st1 := draw_bracket st (x : Int) (y : Int) (width : Int) (height : Int)
    5 BracketColor
  { st1 with trace := st1.trace ++ [Event.refreshRect (make_rect x y width height)] }

/-- foundation::CanvasProperties, the fields used by tilecallback.cpp. -/
structure CanvasProperties where
  m_canvas_width : Nat
  m_canvas_height : Nat
  m_tile_width : Nat
  m_tile_height : Nat
  m_tile_count_x : Nat
  m_tile_count_y : Nat
  m_channel_count : Nat

/-- A source tile of the frame image: its actual (possibly
border-truncated) dimensions and its pixel grid. -/
structure SrcTile (σ : Type) where
  width : Nat
  height : Nat
  pixel : Nat → Nat → σ

/-- renderer::Frame as seen by tilecallback.cpp: canvas properties, the
tile grid of its image, and the two opaque pixelwise library routines
(conversion of a tile to PixelFormatFloat, and
transform_to_output_color_space). -/
structure Frame (σ : Type) where
  props : CanvasProperties
  tile : Nat → Nat → SrcTile σ
  convertToFloat : σ → Color4
  toOutputColorSpace : Color4 → Color4

/-- Color the blit loop stores for source pixel (x, y) of a tile:
converted to 32-bit floating point, then transformed to the frame's
output color space. -/
def blitColor {σ : Type} (f : Frame σ) (t : SrcTile σ) (x y : Nat) : Color4 :=
  f.toOutputColorSpace (f.convertToFloat (t.pixel x y))

/-- TileCallback::blit_tile: convert the source tile to floating point
(the copy keeps the tile's actual width and height), transform it to
the output color space, and store its pixels one by one at destination
origin (tile_x * m_tile_width, tile_y * m_tile_height).  The leading
Event.blit records that blit_tile ran for this tile index. -/
def blit_tile {σ : Type} (f : Frame σ) (tile_x tile_y : Nat) (st : CBState) :
    CBState :=
  let props := f.props
  let tile := f.tile tile_x tile_y
  let dest_x := tile_x * props.m_tile_width
  let dest_y := tile_y * props.m_tile_height
  let st0 : CBState := { st with trace := st.trace ++ [Event.blit tile_x tile_y] }
  (List.range tile.height).foldl
    (fun sy y =>
      (List.range tile.width).foldl
        (fun sx x =>
          putPixels sx ((dest_x + x : Nat) : Int) ((dest_y + y : Nat) : Int)
            (blitColor f tile x y))
        sy)
    st0

/-- TileCallback::post_render_tile: blit the tile, refresh the tile's
rectangle of the display window, and atomically increment the shared
rendered-tile counter. -/
def post_render_tile {σ : Type} (f : Frame σ) (tile_x tile_y : Nat)
    (st : CBState) : CBState :=
  let props := f.props
  let st1 := blit_tile f tile_x tile_y st
  let tile := f.tile tile_x tile_y
  let x := tile_x * props.m_tile_width
  let y := tile_y * props.m_tile_height
  let st2 : CBState :=
    { st1 with trace := st1.trace ++ [Event.refreshRect (make_rect x y tile.width tile.height)] }
  { st2 with rendered := st2.rendered + 1 }

/-- TileCallback::post_render: blit all tiles, row by row, then refresh
the entire display window (RefreshWindow with no rectangle). -/
def post_render {σ : Type} (f : Frame σ) (st : CBState) : CBState :=
  let props := f.props
  let st1 := (List.range props.m_tile_count_y).foldl
    (fun sy y =>
      (List.range props.m_tile_count_x).foldl (fun sx x => blit_tile f x y sx) sy)
    st
  { st1 with trace := st1.trace ++ [Event.refreshFull] }

/-
Model of appleseedrendererparamdlg.cpp.

The 3ds Max host (IRendParams, ICustEdit, ISpinnerControl) is external;
it is modelled as a state of rollup pages plus live-control counts, and
the spinner being configured is modelled as a record updated by the
setter calls.  The numeric values of the resource ids
IDC_TEXT_PIXELSAMPLES / IDC_SPINNER_PIXELSAMPLES and of the EDITTYPE_INT
enumerator live in resource.h and the 3ds Max SDK; only their identity
matters to the code, so they are carried as fixed distinct constants.
-/

/-- Resource id of the pixel-samples edit box (value from resource.h,
not part of this fragment; only its identity is used). -/
def IDC_TEXT_PIXELSAMPLES : Nat := 1001

/-- Resource id of the pixel-samples spinner (value from resource.h,
not part of this fragment; only its identity is used). -/
def IDC_SPINNER_PIXELSAMPLES : Nat := 1002

/-- The EDITTYPE_INT enumerator of the 3ds Max SDK (integer edit
field); only its identity is used. -/
def EDITTYPE_INT : Nat := 1

/-- LOWORD of a WPARAM: its low-order 16 bits. -/
def LOWORD (w : Nat) : Nat := w % 65536

/-- RendererSettings, the field this fragment uses.  The spinner limits
keep m_pixel_samples in [1, 1000000], so the size_t field is carried as
Nat. -/
structure RendererSettings where
  m_pixel_samples : Nat
deriving DecidableEq, Repr

/-- Modelled from the spec: RendererSettings::defaults() lives in
renderersettings.cpp, which is not part of this fragment.  The claims
only compare against defaults().m_pixel_samples symbolically, so any
fixed value serves. -/
def RendererSettings.defaults : RendererSettings := { m_pixel_samples := 16 }

/-- AppleseedRendererParamDlg::Impl, the fields the claims touch: the
internal copy of the settings and the handle of the Sampling rollup
page. -/
structure Impl where
  m_settings : RendererSettings
  m_rollup_sampling : Nat
deriving DecidableEq, Repr

/-- on_command (appleseedrendererparamdlg.cpp).  editVal models the
value m_text_pixelsamples->GetInt() would return at this moment. -/
def on_command (impl : Impl) (editVal : Nat) (wParam : Nat) : Impl × Bool :=
  if LOWORD wParam = IDC_TEXT_PIXELSAMPLES then
    ({ impl with m_settings := { m_pixel_samples := editVal } }, true)
  else
    (impl, false)

/-- State of the host UI: the rollup pages (handle, title) in creation
order, the next fresh handle, and the numbers of live custom-edit and
spinner control wrappers. -/
structure HostUI where
  pages : List (Nat × String)
  nextHWND : Nat
  liveEdits : Nat
  liveSpinners : Nat
deriving DecidableEq, Repr

/-- IRendParams::AddRollupPage: create a page with a fresh handle,
return the handle. -/
def AddRollupPage (host : HostUI) (title : String) : Nat × HostUI :=
  (host.nextHWND,
    { host with
        pages := host.pages ++ [(host.nextHWND, title)]
        nextHWND := host.nextHWND + 1 })

/-- IRendParams::DeleteRollupPage: remove the page with this handle. -/
def DeleteRollupPage (host : HostUI) (hwnd : Nat) : HostUI :=
  { host with pages := host.pages.filter (fun p => p.1 != hwnd) }

/-- GetICustEdit: acquire a custom-edit wrapper. -/
def GetICustEdit (host : HostUI) : HostUI :=
  { host with liveEdits := host.liveEdits + 1 }

/-- ReleaseICustEdit. -/
def ReleaseICustEdit (host : HostUI) : HostUI :=
  { host with liveEdits := host.liveEdits - 1 }

/-- GetISpinner: acquire a spinner wrapper. -/
def GetISpinner (host : HostUI) : HostUI :=
  { host with liveSpinners := host.liveSpinners + 1 }

/-- ReleaseISpinner. -/
def ReleaseISpinner (host : HostUI) : HostUI :=
  { host with liveSpinners := host.liveSpinners - 1 }

/-- Title of the single rollup page this dialog adds. -/
def samplingTitle : String := "Sampling"

/-- Impl::Impl (constructor): add the Sampling rollup page and remember
its handle. -/
def Impl.construct (host : HostUI) (settings : RendererSettings) :
    Impl × HostUI :=
  let r := AddRollupPage host samplingTitle
  ({ m_settings := settings, m_rollup_sampling := r.1 }, r.2)

/-- Impl::destroy_controls: release the edit and the spinner. -/
def destroy_controls (host : HostUI) : HostUI :=
  ReleaseISpinner (ReleaseICustEdit host)

/-- Impl::~Impl (destructor): destroy_controls, then delete the
Sampling rollup page. -/
def Impl.destruct (impl : Impl) (host : HostUI) : HostUI :=
  DeleteRollupPage (destroy_controls host) impl.m_rollup_sampling

/-- A spinner control record as configured by create_controls. -/
structure SpinnerControl where
  linkedEdit : Option (Nat × Nat)
  limitMin : Int
  limitMax : Int
  resetValue : Int
  value : Int
deriving DecidableEq, Repr

/-- ISpinnerControl::LinkToEdit. -/
def LinkToEdit (sp : SpinnerControl) (editId editType : Nat) : SpinnerControl :=
  { sp with linkedEdit := some (editId, editType) }

/-- ISpinnerControl::SetLimits (the notify flag is FALSE everywhere in
this fragment and is dropped). -/
def SetLimits (sp : SpinnerControl) (lo hi : Int) : SpinnerControl :=
  { sp with limitMin := lo, limitMax := hi }

/-- ISpinnerControl::SetResetValue. -/
def SetResetValue (sp : SpinnerControl) (v : Int) : SpinnerControl :=
  { sp with resetValue := v }

/-- ISpinnerControl::SetValue (notify flag FALSE, dropped). -/
def SetValue (sp : SpinnerControl) (v : Int) : SpinnerControl :=
  { sp with value := v }

/-- Impl::create_controls: acquire the edit and spinner wrappers and
configure the spinner exactly as the source does, in source order.
sp0 is the spinner state GetISpinner hands back, unknown to this
code. -/
def create_controls (host : HostUI) (settings : RendererSettings)
    (sp0 : SpinnerControl) : HostUI × SpinnerControl :=
  let host1 := GetICustEdit host
  let host2 := GetISpinner host1
  let sp1 := LinkToEdit sp0 IDC_TEXT_PIXELSAMPLES EDITTYPE_INT
  let sp2 := SetLimits sp1 1 1000000
  let sp3 := SetResetValue sp2 (RendererSettings.defaults.m_pixel_samples : Int)
  let sp4 := SetValue sp3 (settings.m_pixel_samples : Int)
  (host2, sp4)

/-- AppleseedRendererParamDlg: its Impl and the caller's
RendererSettings object the m_settings reference member denotes. -/
structure Dlg where
  impl : Impl
  m_settings_caller : RendererSettings
deriving DecidableEq, Repr

/-- AppleseedRendererParamDlg constructor: Impl copies the settings;
m_settings binds to the caller's object, which keeps its value. -/
def Dlg.construct (settings : RendererSettings) (rollup : Nat) : Dlg :=
  { impl := { m_settings := settings, m_rollup_sampling := rollup }
    m_settings_caller := settings }

/-- One WM_COMMAND delivered to the dialog: the dialog routes it to
on_command, which may update the Impl; the caller's object is not
touched. -/
def Dlg.command (d : Dlg) (editVal wParam : Nat) : Dlg :=
  { d with impl := (on_command d.impl editVal wParam).1 }

/-- A sequence of WM_COMMANDs, each with the edit value current at that
moment. -/
def Dlg.run (d : Dlg) (cmds : List (Nat × Nat)) : Dlg :=
  cmds.foldl (fun d c => Dlg.command d c.1 c.2) d

/-- AppleseedRendererParamDlg::AcceptParams: copy the internal settings
into the caller's object. -/
def AcceptParams (d : Dlg) : Dlg :=
  { d with m_settings_caller := d.impl.m_settings }

/-
Lemmas about the line-drawing loops.
-/

/-- The events draw_hline emits: one putPixel per iteration, at row y
and columns x, x + s, ..., stepping by s = lineStep length. -/
def hlineEvents (x y length : Int) (c : Color4) : List Event :=
  (List.range length.natAbs).map
    (fun k : Nat => Event.putPixel (x + lineStep length * (k : Int)) y c)

/-- The events draw_vline emits. -/
def vlineEvents (x y length : Int) (c : Color4) : List Event :=
  (List.range length.natAbs).map
    (fun k : Nat => Event.putPixel x (y + lineStep length * (k : Int)) c)

theorem hlineLoop_trace (y : Int) (c : Color4) (s : Int) :
    ∀ (n : Nat) (i : Int) (st : CBState),
      (hlineLoop y c s n i st).trace =
        st.trace ++ (List.range n).map
          (fun k : Nat => Event.putPixel (i + s * (k : Int)) y c) := by
  intro n
  induction n with
  | zero => intro i st; simp [hlineLoop]
  | succ n ih =>
    intro i st
    rw [hlineLoop, ih, List.range_succ_eq_map]
    simp only [List.map_cons, List.map_map, putPixels, Nat.cast_zero, mul_zero,
      add_zero, List.append_assoc, List.singleton_append, List.append_cancel_left_eq,
      List.cons.injEq, true_and]
    apply List.map_congr_left
    intro k _
    simp only [Function.comp_apply, Event.putPixel.injEq, and_true, true_and]
    push_cast
    ring

theorem vlineLoop_trace (x : Int) (c : Color4) (s : Int) :
    ∀ (n : Nat) (i : Int) (st : CBState),
      (vlineLoop x c s n i st).trace =
        st.trace ++ (List.range n).map
          (fun k : Nat => Event.putPixel x (i + s * (k : Int)) c) := by
  intro n
  induction n with
  | zero => intro i st; simp [vlineLoop]
  | succ n ih =>
    intro i st
    rw [vlineLoop, ih, List.range_succ_eq_map]
    simp only [List.map_cons, List.map_map, putPixels, Nat.cast_zero, mul_zero,
      add_zero, List.append_assoc, List.singleton_append, List.append_cancel_left_eq,
      List.cons.injEq, true_and]
    apply List.map_congr_left
    intro k _
    simp only [Function.comp_apply, Event.putPixel.injEq, and_true, true_and]
    push_cast
    ring

theorem draw_hline_trace (st : CBState) (x y length : Int) (c : Color4) :
    (draw_hline st x y length c).trace = st.trace ++ hlineEvents x y length c :=
  hlineLoop_trace y c (lineStep length) length.natAbs x st

theorem draw_vline_trace (st : CBState) (x y length : Int) (c : Color4) :
    (draw_vline st x y length c).trace = st.trace ++ vlineEvents x y length c :=
  vlineLoop_trace x c (lineStep length) length.natAbs y st

theorem hlineLoop_rendered (y : Int) (c : Color4) (s : Int) :
    ∀ (n : Nat) (i : Int) (st : CBState),
      (hlineLoop y c s n i st).rendered = st.rendered := by
  intro n
  induction n with
  | zero => intro i st; simp [hlineLoop]
  | succ n ih => intro i st; rw [hlineLoop, ih]; rfl

theorem vlineLoop_rendered (x : Int) (c : Color4) (s : Int) :
    ∀ (n : Nat) (i : Int) (st : CBState),
      (vlineLoop x c s n i st).rendered = st.rendered := by
  intro n
  induction n with
  | zero => intro i st; simp [vlineLoop]
  | succ n ih => intro i st; rw [vlineLoop, ih]; rfl

theorem lineStep_cases (length : Int) : lineStep length = 1 ∨ lineStep length = -1 := by
  unfold lineStep
  split
  case isTrue => exact Or.inl rfl
  case isFalse => exact Or.inr rfl

/-- Claim C10: for every signed integer length — positive, zero, or
negative — draw_hline terminates (it is a total function of the loop's
exact trip count) and writes exactly natAbs length pixels, at row y and
columns x + s * k for k < natAbs length where s is 1 if length > 0 and
-1 otherwise, the last being x + length - s when length is nonzero; the
positions are pairwise distinct; draw_vline does the same with row and
column swapped. -/
theorem draw_line_pixels (st st2 : CBState) (x y length : Int) (c : Color4) :
    (draw_hline st x y length c).trace =
      st.trace ++ (List.range length.natAbs).map
        (fun k : Nat => Event.putPixel (x + lineStep length * (k : Int)) y c)
    ∧ (draw_vline st2 x y length c).trace =
      st2.trace ++ (List.range length.natAbs).map
        (fun k : Nat => Event.putPixel x (y + lineStep length * (k : Int)) c)
    ∧ ((List.range length.natAbs).map
        (fun k : Nat => x + lineStep length * (k : Int))).Nodup
    ∧ (length ≠ 0 →
        x + lineStep length * ((length.natAbs : Int) - 1) = x + length - lineStep length) := by
  refine ⟨draw_hline_trace st x y length c, draw_vline_trace st2 x y length c, ?_, ?_⟩
  · refine (List.nodup_range length.natAbs).map ?_
    intro a b hab
    have h2 : x + lineStep length * (a : Int) = x + lineStep length * (b : Int) := hab
    unfold lineStep at h2
    split at h2 <;> omega
  · intro h0
    unfold lineStep
    split <;> omega

theorem draw_hline_rendered (st : CBState) (x y length : Int) (c : Color4) :
    (draw_hline st x y length c).rendered = st.rendered :=
  hlineLoop_rendered y c (lineStep length) length.natAbs x st

theorem draw_vline_rendered (st : CBState) (x y length : Int) (c : Color4) :
    (draw_vline st x y length c).rendered = st.rendered :=
  vlineLoop_rendered x c (lineStep length) length.natAbs y st

theorem mem_hlineEvents {x y length : Int} {c : Color4} {px py : Int} {cc : Color4} :
    Event.putPixel px py cc ∈ hlineEvents x y length c ↔
      ∃ k : Nat, k < length.natAbs
        ∧ px = x + lineStep length * (k : Int) ∧ py = y ∧ cc = c := by
  simp only [hlineEvents, List.mem_map, List.mem_range]
  constructor
  · rintro ⟨k, hk, he⟩
    rw [Event.putPixel.injEq] at he
    exact ⟨k, hk, he.1.symm, he.2.1.symm, he.2.2.symm⟩
  · rintro ⟨k, hk, h1, h2, h3⟩
    exact ⟨k, hk, by rw [Event.putPixel.injEq]; exact ⟨h1.symm, h2.symm, h3.symm⟩⟩

theorem mem_vlineEvents {x y length : Int} {c : Color4} {px py : Int} {cc : Color4} :
    Event.putPixel px py cc ∈ vlineEvents x y length c ↔
      ∃ k : Nat, k < length.natAbs
        ∧ px = x ∧ py = y + lineStep length * (k : Int) ∧ cc = c := by
  simp only [vlineEvents, List.mem_map, List.mem_range]
  constructor
  · rintro ⟨k, hk, he⟩
    rw [Event.putPixel.injEq] at he
    exact ⟨k, hk, he.1.symm, he.2.1.symm, he.2.2.symm⟩
  · rintro ⟨k, hk, h1, h2, h3⟩
    exact ⟨k, hk, by rw [Event.putPixel.injEq]; exact ⟨h1.symm, h2.symm, h3.symm⟩⟩

/-- The events draw_bracket emits, in source order: for each corner a
horizontal then a vertical segment, top-left, top-right, bottom-left,
bottom-right, with negative (inward) lengths at the far edges. -/
def bracketEvents (x y width height bracket_extent : Int) (c : Color4) : List Event :=
  hlineEvents x y (min bracket_extent width) c
  ++ vlineEvents x y (min bracket_extent height) c
  ++ hlineEvents (x + width - 1) y (-(min bracket_extent width)) c
  ++ vlineEvents (x + width - 1) y (min bracket_extent height) c
  ++ hlineEvents x (y + height - 1) (min bracket_extent width) c
  ++ vlineEvents x (y + height - 1) (-(min bracket_extent height)) c
  ++ hlineEvents (x + width - 1) (y + height - 1) (-(min bracket_extent width)) c
  ++ vlineEvents (x + width - 1) (y + height - 1) (-(min bracket_extent height)) c

theorem draw_bracket_trace (st : CBState) (x y width height e : Int) (c : Color4) :
    (draw_bracket st x y width height e c).trace =
      st.trace ++ bracketEvents x y width height e c := by
  simp [draw_bracket, bracketEvents, draw_hline_trace, draw_vline_trace,
    List.append_assoc]

theorem draw_bracket_rendered (st : CBState) (x y width height e : Int) (c : Color4) :
    (draw_bracket st x y width height e c).rendered = st.rendered := by
  simp [draw_bracket, draw_hline_rendered, draw_vline_rendered]

theorem pre_render_trace (st : CBState) (x y width height : Nat) :
    (pre_render st x y width height).trace =
      st.trace
        ++ bracketEvents (x : Int) (y : Int) (width : Int) (height : Int) 5 BracketColor
        ++ [Event.refreshRect (make_rect x y width height)] := by
  simp [pre_render, draw_bracket_trace, List.append_assoc]

/-- The positions of the progress bracket, as the claim describes them:
at each of the four corners of the rectangle one horizontal segment of
length min 5 width and one vertical segment of length min 5 height, the
segments at the right/bottom corners running inward. -/
def bracketPred (x y width height : Nat) (px py : Int) : Prop :=
  (∃ i : Nat, i < min 5 width ∧ px = (x : Int) + i ∧ py = (y : Int))
  ∨ (∃ j : Nat, j < min 5 height ∧ px = (x : Int) ∧ py = (y : Int) + j)
  ∨ (∃ i : Nat, i < min 5 width ∧ px = (x : Int) + width - 1 - i ∧ py = (y : Int))
  ∨ (∃ j : Nat, j < min 5 height ∧ px = (x : Int) + width - 1 ∧ py = (y : Int) + j)
  ∨ (∃ i : Nat, i < min 5 width ∧ px = (x : Int) + i ∧ py = (y : Int) + height - 1)
  ∨ (∃ j : Nat, j < min 5 height ∧ px = (x : Int) ∧ py = (y : Int) + height - 1 - j)
  ∨ (∃ i : Nat, i < min 5 width
      ∧ px = (x : Int) + width - 1 - i ∧ py = (y : Int) + height - 1)
  ∨ (∃ j : Nat, j < min 5 height
      ∧ px = (x : Int) + width - 1 ∧ py = (y : Int) + height - 1 - j)

/-- Claim C5: for every tile rectangle (x, y, width, height) with
width >= 1 and height >= 1, pre_render draws a white bracket: its trace
appends the bracket writes followed by exactly one refresh of exactly
the tile rectangle, and the written pixels are exactly the white pixels
of one horizontal segment of length min 5 width and one vertical
segment of length min 5 height at each of the four corners, the
segments at right/bottom corners drawn inward. -/
theorem pre_render_bracket (st : CBState) (x y width height : Nat)
    (hw : 1 ≤ width) (hh : 1 ≤ height) :
    (pre_render st x y width height).trace =
      st.trace
        ++ bracketEvents (x : Int) (y : Int) (width : Int) (height : Int) 5 BracketColor
        ++ [Event.refreshRect (make_rect x y width height)]
    ∧ ∀ (px py : Int) (c : Color4),
        Event.putPixel px py c ∈
            bracketEvents (x : Int) (y : Int) (width : Int) (height : Int) 5 BracketColor
          ↔ (c = BracketColor ∧ bracketPred x y width height px py) := by
  refine ⟨pre_render_trace st x y width height, ?_⟩
  intro px py c
  have hWa : (min 5 ((width : Nat) : Int)).natAbs = min 5 width := by omega
  have hWa2 : (-(min 5 ((width : Nat) : Int))).natAbs = min 5 width := by omega
  have hHa : (min 5 ((height : Nat) : Int)).natAbs = min 5 height := by omega
  have hHa2 : (-(min 5 ((height : Nat) : Int))).natAbs = min 5 height := by omega
  have hsW : lineStep (min 5 ((width : Nat) : Int)) = 1 := by
    unfold lineStep; split <;> omega
  have hsW2 : lineStep (-(min 5 ((width : Nat) : Int))) = -1 := by
    unfold lineStep; split <;> omega
  have hsH : lineStep (min 5 ((height : Nat) : Int)) = 1 := by
    unfold lineStep; split <;> omega
  have hsH2 : lineStep (-(min 5 ((height : Nat) : Int))) = -1 := by
    unfold lineStep; split <;> omega
  simp only [bracketEvents, List.mem_append, mem_hlineEvents, mem_vlineEvents,
    hWa, hWa2, hHa, hHa2, hsW, hsW2, hsH, hsH2, one_mul, neg_mul, bracketPred]
  constructor
  · rintro (((((((⟨k, hk, h1, h2, h3⟩ | ⟨k, hk, h1, h2, h3⟩) | ⟨k, hk, h1, h2, h3⟩) |
        ⟨k, hk, h1, h2, h3⟩) | ⟨k, hk, h1, h2, h3⟩) | ⟨k, hk, h1, h2, h3⟩) |
        ⟨k, hk, h1, h2, h3⟩) | ⟨k, hk, h1, h2, h3⟩)
    · exact ⟨h3, Or.inl ⟨k, hk, by omega, by omega⟩⟩
    · exact ⟨h3, Or.inr (Or.inl ⟨k, hk, by omega, by omega⟩)⟩
    · exact ⟨h3, Or.inr (Or.inr (Or.inl ⟨k, hk, by omega, by omega⟩))⟩
    · exact ⟨h3, Or.inr (Or.inr (Or.inr (Or.inl ⟨k, hk, by omega, by omega⟩)))⟩
    · exact ⟨h3, Or.inr (Or.inr (Or.inr (Or.inr (Or.inl ⟨k, hk, by omega, by omega⟩))))⟩
    · exact ⟨h3, Or.inr (Or.inr (Or.inr (Or.inr (Or.inr
        (Or.inl ⟨k, hk, by omega, by omega⟩)))))⟩
    · exact ⟨h3, Or.inr (Or.inr (Or.inr (Or.inr (Or.inr (Or.inr
        (Or.inl ⟨k, hk, by omega, by omega⟩))))))⟩
    · exact ⟨h3, Or.inr (Or.inr (Or.inr (Or.inr (Or.inr (Or.inr
        (Or.inr ⟨k, hk, by omega, by omega⟩))))))⟩
  · rintro ⟨hc, (⟨k, hk, h1, h2⟩ | ⟨k, hk, h1, h2⟩ | ⟨k, hk, h1, h2⟩ | ⟨k, hk, h1, h2⟩ |
      ⟨k, hk, h1, h2⟩ | ⟨k, hk, h1, h2⟩ | ⟨k, hk, h1, h2⟩ | ⟨k, hk, h1, h2⟩)⟩
    · exact Or.inl (Or.inl (Or.inl (Or.inl (Or.inl (Or.inl (Or.inl
        ⟨k, hk, by omega, by omega, hc⟩))))))
    · exact Or.inl (Or.inl (Or.inl (Or.inl (Or.inl (Or.inl (Or.inr
        ⟨k, hk, by omega, by omega, hc⟩))))))
    · exact Or.inl (Or.inl (Or.inl (Or.inl (Or.inl (Or.inr
        ⟨k, hk, by omega, by omega, hc⟩)))))
    · exact Or.inl (Or.inl (Or.inl (Or.inl (Or.inr ⟨k, hk, by omega, by omega, hc⟩))))
    · exact Or.inl (Or.inl (Or.inl (Or.inr ⟨k, hk, by omega, by omega, hc⟩)))
    · exact Or.inl (Or.inl (Or.inr ⟨k, hk, by omega, by omega, hc⟩))
    · exact Or.inl (Or.inr ⟨k, hk, by omega, by omega, hc⟩)
    · exact Or.inr ⟨k, hk, by omega, by omega, hc⟩

/-
Lemmas about the blit loops.
-/

theorem flatMap_single {α β : Type} (l : List α) (g : α → β) :
    (l.flatMap (fun a => [g a])) = l.map g := by
  induction l with
  | nil => rfl
  | cons a l ih => simp [List.flatMap_cons, ih]

theorem putPixels_trace (s : CBState) (x y : Int) (c : Color4) :
    (putPixels s x y c).trace = s.trace ++ [Event.putPixel x y c] := rfl

theorem putPixels_rendered (s : CBState) (x y : Int) (c : Color4) :
    (putPixels s x y c).rendered = s.rendered := rfl

theorem putPixels_bitmap (s : CBState) (x y : Int) (c : Color4) (p : Int × Int) :
    (putPixels s x y c).bitmap p = if p = (x, y) then c else s.bitmap p := rfl

theorem putRow_trace (px : Nat → Int) (py : Int) (colf : Nat → Color4) :
    ∀ (w : Nat) (s : CBState),
      ((List.range w).foldl (fun sx x => putPixels sx (px x) py (colf x)) s).trace =
        s.trace ++ (List.range w).map (fun x => Event.putPixel (px x) py (colf x)) := by
  intro w
  induction w with
  | zero => intro s; simp
  | succ n ih =>
    intro s
    rw [List.range_succ, List.foldl_append, List.map_append]
    simp only [List.foldl_cons, List.foldl_nil, putPixels_trace]
    rw [ih, List.append_assoc]
    simp

theorem putRow_rendered (px : Nat → Int) (py : Int) (colf : Nat → Color4) :
    ∀ (w : Nat) (s : CBState),
      ((List.range w).foldl (fun sx x => putPixels sx (px x) py (colf x)) s).rendered =
        s.rendered := by
  intro w
  induction w with
  | zero => intro s; simp
  | succ n ih =>
    intro s
    rw [List.range_succ, List.foldl_append]
    simp only [List.foldl_cons, List.foldl_nil, putPixels_rendered]
    exact ih s

theorem putRow_bitmap_miss (px : Nat → Int) (py : Int) (colf : Nat → Color4) :
    ∀ (w : Nat) (s : CBState) (p : Int × Int), (∀ x, x < w → p ≠ (px x, py)) →
      ((List.range w).foldl (fun sx x => putPixels sx (px x) py (colf x)) s).bitmap p =
        s.bitmap p := by
  intro w
  induction w with
  | zero => intro s p _; simp
  | succ n ih =>
    intro s p hp
    rw [List.range_succ, List.foldl_append]
    have hne : p ≠ (px n, py) := hp n (Nat.lt_succ_self n)
    simp only [List.foldl_cons, List.foldl_nil, putPixels, if_neg hne]
    exact ih s p (fun x hx => hp x (Nat.lt_succ_of_lt hx))

theorem putRow_bitmap_hit (px : Nat → Int) (py : Int) (colf : Nat → Color4)
    (hinj : ∀ a b : Nat, px a = px b → a = b) :
    ∀ (w : Nat) (s : CBState) (x0 : Nat), x0 < w →
      ((List.range w).foldl (fun sx x => putPixels sx (px x) py (colf x)) s).bitmap
          (px x0, py) =
        colf x0 := by
  intro w
  induction w with
  | zero => intro s x0 h; exact absurd h (Nat.not_lt_zero x0)
  | succ n ih =>
    intro s x0 h
    rw [List.range_succ, List.foldl_append]
    rcases Nat.lt_succ_iff_lt_or_eq.mp h with h0 | h0
    · have hne : (px x0, py) ≠ (px n, py) := by
        intro he
        rw [Prod.mk.injEq] at he
        exact absurd (hinj x0 n he.1) (Nat.ne_of_lt h0)
      simp only [List.foldl_cons, List.foldl_nil, putPixels, if_neg hne]
      exact ih s x0 h0
    · subst h0
      simp [putPixels]

theorem putGrid_trace (px : Nat → Int) (pyf : Nat → Int) (colf : Nat → Nat → Color4)
    (w : Nat) :
    ∀ (h : Nat) (s : CBState),
      ((List.range h).foldl
          (fun sy y =>
            (List.range w).foldl (fun sx x => putPixels sx (px x) (pyf y) (colf x y)) sy)
          s).trace =
        s.trace ++ (List.range h).flatMap
          (fun y => (List.range w).map (fun x => Event.putPixel (px x) (pyf y) (colf x y))) := by
  intro h
  induction h with
  | zero => intro s; simp
  | succ n ih =>
    intro s
    rw [List.range_succ, List.foldl_append, List.flatMap_append]
    simp only [List.foldl_cons, List.foldl_nil, List.flatMap_cons, List.flatMap_nil,
      List.append_nil]
    rw [putRow_trace, ih, List.append_assoc]

theorem putGrid_rendered (px : Nat → Int) (pyf : Nat → Int) (colf : Nat → Nat → Color4)
    (w : Nat) :
    ∀ (h : Nat) (s : CBState),
      ((List.range h).foldl
          (fun sy y =>
            (List.range w).foldl (fun sx x => putPixels sx (px x) (pyf y) (colf x y)) sy)
          s).rendered = s.rendered := by
  intro h
  induction h with
  | zero => intro s; simp
  | succ n ih =>
    intro s
    rw [List.range_succ, List.foldl_append]
    simp only [List.foldl_cons, List.foldl_nil]
    rw [putRow_rendered, ih]

theorem putGrid_bitmap_hit (px : Nat → Int) (pyf : Nat → Int)
    (colf : Nat → Nat → Color4) (w : Nat)
    (hinjx : ∀ a b : Nat, px a = px b → a = b)
    (hinjy : ∀ a b : Nat, pyf a = pyf b → a = b) :
    ∀ (h : Nat) (s : CBState) (x0 y0 : Nat), x0 < w → y0 < h →
      ((List.range h).foldl
          (fun sy y =>
            (List.range w).foldl (fun sx x => putPixels sx (px x) (pyf y) (colf x y)) sy)
          s).bitmap (px x0, pyf y0) =
        colf x0 y0 := by
  intro h
  induction h with
  | zero => intro s x0 y0 _ hy; exact absurd hy (Nat.not_lt_zero y0)
  | succ n ih =>
    intro s x0 y0 hx hy
    rw [List.range_succ, List.foldl_append]
    simp only [List.foldl_cons, List.foldl_nil]
    rcases Nat.lt_succ_iff_lt_or_eq.mp hy with h0 | h0
    · rw [putRow_bitmap_miss]
      · exact ih s x0 y0 hx h0
      · intro x _ he
        rw [Prod.mk.injEq] at he
        exact absurd (hinjy y0 n he.2) (Nat.ne_of_lt h0)
    · subst h0
      exact putRow_bitmap_hit px (pyf y0) (fun x => colf x y0) hinjx w _ x0 hx

theorem putGrid_bitmap_miss (px : Nat → Int) (pyf : Nat → Int)
    (colf : Nat → Nat → Color4) (w : Nat) :
    ∀ (h : Nat) (s : CBState) (p : Int × Int),
      (∀ x y : Nat, x < w → y < h → p ≠ (px x, pyf y)) →
      ((List.range h).foldl
          (fun sy y =>
            (List.range w).foldl (fun sx x => putPixels sx (px x) (pyf y) (colf x y)) sy)
          s).bitmap p = s.bitmap p := by
  intro h
  induction h with
  | zero => intro s p _; simp
  | succ n ih =>
    intro s p hp
    rw [List.range_succ, List.foldl_append]
    simp only [List.foldl_cons, List.foldl_nil]
    rw [putRow_bitmap_miss]
    · exact ih s p (fun x y hx hy => hp x y hx (Nat.lt_succ_of_lt hy))
    · exact fun x hx => hp x n hx (Nat.lt_succ_self n)

/-- Unfolding equation of blit_tile. -/
theorem blit_tile_def {σ : Type} (f : Frame σ) (tx ty : Nat) (st : CBState) :
    blit_tile f tx ty st =
      (List.range (f.tile tx ty).height).foldl
        (fun sy y =>
          (List.range (f.tile tx ty).width).foldl
            (fun sx x =>
              putPixels sx ((tx * f.props.m_tile_width + x : Nat) : Int)
                ((ty * f.props.m_tile_height + y : Nat) : Int)
                (blitColor f (f.tile tx ty) x y))
            sy)
        { st with trace := st.trace ++ [Event.blit tx ty] } := rfl

/-- The events blit_tile emits: its instrumentation marker followed by
one putPixel per tile pixel, row by row. -/
def blitEvents {σ : Type} (f : Frame σ) (tile_x tile_y : Nat) : List Event :=
  Event.blit tile_x tile_y ::
    (List.range (f.tile tile_x tile_y).height).flatMap
      (fun y => (List.range (f.tile tile_x tile_y).width).map
        (fun x => Event.putPixel ((tile_x * f.props.m_tile_width + x : Nat) : Int)
          ((tile_y * f.props.m_tile_height + y : Nat) : Int)
          (blitColor f (f.tile tile_x tile_y) x y)))

theorem blit_tile_trace {σ : Type} (f : Frame σ) (tx ty : Nat) (st : CBState) :
    (blit_tile f tx ty st).trace = st.trace ++ blitEvents f tx ty := by
  rw [blit_tile_def, putGrid_trace]
  simp [blitEvents]

theorem blit_tile_rendered {σ : Type} (f : Frame σ) (tx ty : Nat) (st : CBState) :
    (blit_tile f tx ty st).rendered = st.rendered := by
  rw [blit_tile_def, putGrid_rendered]

theorem count_blit_blitEvents {σ : Type} (f : Frame σ) (tx ty a b : Nat) :
    (blitEvents f tx ty).count (Event.blit a b) = if a = tx ∧ b = ty then 1 else 0 := by
  unfold blitEvents
  rw [List.count_cons]
  have h0 : ((List.range (f.tile tx ty).height).flatMap
      (fun y => (List.range (f.tile tx ty).width).map
        (fun x => Event.putPixel ((tx * f.props.m_tile_width + x : Nat) : Int)
          ((ty * f.props.m_tile_height + y : Nat) : Int)
          (blitColor f (f.tile tx ty) x y)))).count (Event.blit a b) = 0 := by
    rw [List.count_eq_zero]
    intro hmem
    rw [List.mem_flatMap] at hmem
    obtain ⟨yy, _, hm⟩ := hmem
    rw [List.mem_map] at hm
    obtain ⟨xx, _, he⟩ := hm
    exact Event.noConfusion he
  rw [h0]
  simp only [beq_iff_eq, Event.blit.injEq, Nat.zero_add]
  split_ifs <;> omega

theorem mem_blitEvents_cases {σ : Type} (f : Frame σ) (x y : Nat) (e : Event)
    (he : e ∈ blitEvents f x y) :
    e = Event.blit x y ∨ ∃ px py c, e = Event.putPixel px py c := by
  unfold blitEvents at he
  rcases List.mem_cons.mp he with h | h
  · exact Or.inl h
  · rw [List.mem_flatMap] at h
    obtain ⟨yy, _, hm⟩ := h
    rw [List.mem_map] at hm
    obtain ⟨xx, _, he2⟩ := hm
    exact Or.inr ⟨_, _, _, he2.symm⟩

theorem foldl_trace_shift {β : Type} (g : CBState → β → CBState) (e : β → List Event)
    (hg : ∀ (st : CBState) (b : β), (g st b).trace = st.trace ++ e b) :
    ∀ (l : List β) (st : CBState), (l.foldl g st).trace = st.trace ++ l.flatMap e := by
  intro l
  induction l with
  | nil => intro st; simp
  | cons b l ih =>
    intro st
    rw [List.foldl_cons, ih, hg, List.flatMap_cons, List.append_assoc]

theorem foldl_rendered_const {β : Type} (g : CBState → β → CBState)
    (hg : ∀ (st : CBState) (b : β), (g st b).rendered = st.rendered) :
    ∀ (l : List β) (st : CBState), (l.foldl g st).rendered = st.rendered := by
  intro l
  induction l with
  | nil => intro st; rfl
  | cons b l ih => intro st; rw [List.foldl_cons, ih, hg]

/-- The events post_render emits before its full refresh: the blits of
all tiles, row by row. -/
def gridBlitEvents {σ : Type} (f : Frame σ) : List Event :=
  (List.range f.props.m_tile_count_y).flatMap
    (fun y => (List.range f.props.m_tile_count_x).flatMap (fun x => blitEvents f x y))

theorem post_render_trace {σ : Type} (f : Frame σ) (st : CBState) :
    (post_render f st).trace = st.trace ++ gridBlitEvents f ++ [Event.refreshFull] := by
  have hrow : ∀ (y : Nat) (s : CBState),
      ((List.range f.props.m_tile_count_x).foldl (fun sx x => blit_tile f x y sx) s).trace
        = s.trace ++ (List.range f.props.m_tile_count_x).flatMap (fun x => blitEvents f x y) :=
    fun y s => foldl_trace_shift (fun sx x => blit_tile f x y sx)
      (fun x => blitEvents f x y) (fun s0 b => blit_tile_trace f b y s0)
      (List.range f.props.m_tile_count_x) s
  have hgrid := foldl_trace_shift
    (fun sy y => (List.range f.props.m_tile_count_x).foldl (fun sx x => blit_tile f x y sx) sy)
    (fun y => (List.range f.props.m_tile_count_x).flatMap (fun x => blitEvents f x y))
    (fun s0 y => hrow y s0)
    (List.range f.props.m_tile_count_y) st
  unfold post_render
  simp only [hgrid]
  rw [gridBlitEvents, List.append_assoc]

theorem post_render_rendered {σ : Type} (f : Frame σ) (st : CBState) :
    (post_render f st).rendered = st.rendered := by
  have hgrid := foldl_rendered_const
    (fun sy y => (List.range f.props.m_tile_count_x).foldl (fun sx x => blit_tile f x y sx) sy)
    (fun s0 y => foldl_rendered_const (fun sx x => blit_tile f x y sx)
      (fun s1 b => blit_tile_rendered f b y s1) (List.range f.props.m_tile_count_x) s0)
    (List.range f.props.m_tile_count_y) st
  unfold post_render
  simp only [hgrid]

theorem count_blit_row {σ : Type} (f : Frame σ) (ty a b : Nat) :
    ∀ n : Nat,
      ((List.range n).flatMap (fun x => blitEvents f x ty)).count (Event.blit a b) =
        if a < n ∧ b = ty then 1 else 0 := by
  intro n
  induction n with
  | zero => simp
  | succ n ih =>
    rw [List.range_succ, List.flatMap_append, List.count_append, ih]
    simp only [List.flatMap_cons, List.flatMap_nil, List.append_nil]
    rw [count_blit_blitEvents]
    split_ifs <;> omega

theorem count_blit_grid {σ : Type} (f : Frame σ) (a b : Nat) :
    ∀ m : Nat,
      ((List.range m).flatMap
        (fun y => (List.range f.props.m_tile_count_x).flatMap
          (fun x => blitEvents f x y))).count (Event.blit a b) =
        if a < f.props.m_tile_count_x ∧ b < m then 1 else 0 := by
  intro m
  induction m with
  | zero => simp
  | succ m ih =>
    rw [List.range_succ, List.flatMap_append, List.count_append, ih]
    simp only [List.flatMap_cons, List.flatMap_nil, List.append_nil]
    rw [count_blit_row]
    split_ifs <;> omega

theorem gridBlitEvents_no_refresh {σ : Type} (f : Frame σ) :
    (∀ r : RECT, Event.refreshRect r ∉ gridBlitEvents f)
    ∧ Event.refreshFull ∉ gridBlitEvents f := by
  constructor
  · intro r hmem
    rw [gridBlitEvents, List.mem_flatMap] at hmem
    obtain ⟨y, _, hm⟩ := hmem
    rw [List.mem_flatMap] at hm
    obtain ⟨x, _, he⟩ := hm
    rcases mem_blitEvents_cases f x y _ he with h | ⟨px, py, c, h⟩ <;> exact Event.noConfusion h
  · intro hmem
    rw [gridBlitEvents, List.mem_flatMap] at hmem
    obtain ⟨y, _, hm⟩ := hmem
    rw [List.mem_flatMap] at hm
    obtain ⟨x, _, he⟩ := hm
    rcases mem_blitEvents_cases f x y _ he with h | ⟨px, py, c, h⟩ <;> exact Event.noConfusion h

/-- Claim C1: for every frame and tile index, blit_tile writes exactly
the pixels of the destination rectangle with origin
(tile_x * m_tile_width, tile_y * m_tile_height) and extent the source
tile's actual width and height: inside it every pixel becomes the
source pixel converted to 32-bit floating point and transformed to the
frame's output color space; every other bitmap pixel is unchanged. -/
theorem blit_tile_pixels {σ : Type} (f : Frame σ) (tile_x tile_y : Nat) (st : CBState) :
    (∀ x y : Nat, x < (f.tile tile_x tile_y).width → y < (f.tile tile_x tile_y).height →
      (blit_tile f tile_x tile_y st).bitmap
          (((tile_x * f.props.m_tile_width + x : Nat) : Int),
            ((tile_y * f.props.m_tile_height + y : Nat) : Int)) =
        f.toOutputColorSpace (f.convertToFloat ((f.tile tile_x tile_y).pixel x y)))
    ∧ (∀ p : Int × Int,
        (∀ x y : Nat, x < (f.tile tile_x tile_y).width → y < (f.tile tile_x tile_y).height →
          p ≠ (((tile_x * f.props.m_tile_width + x : Nat) : Int),
            ((tile_y * f.props.m_tile_height + y : Nat) : Int))) →
        (blit_tile f tile_x tile_y st).bitmap p = st.bitmap p) := by
  have hinjx : ∀ a b : Nat,
      ((tile_x * f.props.m_tile_width + a : Nat) : Int) =
        ((tile_x * f.props.m_tile_width + b : Nat) : Int) → a = b := by
    intro a b h
    omega
  have hinjy : ∀ a b : Nat,
      ((tile_y * f.props.m_tile_height + a : Nat) : Int) =
        ((tile_y * f.props.m_tile_height + b : Nat) : Int) → a = b := by
    intro a b h
    omega
  constructor
  · intro x y hx hy
    rw [blit_tile_def]
    exact putGrid_bitmap_hit _ _ _ _ hinjx hinjy _ _ x y hx hy
  · intro p hp
    rw [blit_tile_def]
    exact putGrid_bitmap_miss _ _ _ _ _ _ p hp

/-- Claim C2: post_render blits every tile of the frame exactly once —
one blit for each (x, y) with x < m_tile_count_x and
y < m_tile_count_y — and afterwards refreshes the entire display
window, with no rectangle restriction and no other refresh. -/
theorem post_render_blits {σ : Type} (f : Frame σ) (st : CBState) :
    (post_render f st).trace = st.trace ++ gridBlitEvents f ++ [Event.refreshFull]
    ∧ (∀ tile_x tile_y : Nat,
        (gridBlitEvents f).count (Event.blit tile_x tile_y) =
          if tile_x < f.props.m_tile_count_x ∧ tile_y < f.props.m_tile_count_y
          then 1 else 0)
    ∧ (∀ r : RECT, Event.refreshRect r ∉ gridBlitEvents f)
    ∧ Event.refreshFull ∉ gridBlitEvents f :=
  ⟨post_render_trace f st,
   fun a b => count_blit_grid f a b f.props.m_tile_count_y,
   (gridBlitEvents_no_refresh f).1,
   (gridBlitEvents_no_refresh f).2⟩

/-- Claim C3: post_render_tile blits exactly the one tile (tile_x,
tile_y) and then refreshes exactly the rectangle with left/top corner
(tile_x * m_tile_width, tile_y * m_tile_height) and right/bottom edges
left + tile width and top + tile height, the tile's actual dimensions;
and every rectangle make_rect returns satisfies right - left = width
and bottom - top = height. -/
theorem post_render_tile_spec {σ : Type} (f : Frame σ) (tile_x tile_y : Nat)
    (st : CBState) :
    (post_render_tile f tile_x tile_y st).trace =
      st.trace ++ blitEvents f tile_x tile_y
        ++ [Event.refreshRect
              { left := tile_x * f.props.m_tile_width
                top := tile_y * f.props.m_tile_height
                right := tile_x * f.props.m_tile_width + (f.tile tile_x tile_y).width
                bottom := tile_y * f.props.m_tile_height + (f.tile tile_x tile_y).height }]
    ∧ (∀ a b : Nat,
        (blitEvents f tile_x tile_y).count (Event.blit a b) =
          if a = tile_x ∧ b = tile_y then 1 else 0)
    ∧ (∀ x y width height : Nat,
        (make_rect x y width height).right - (make_rect x y width height).left = width
        ∧ (make_rect x y width height).bottom - (make_rect x y width height).top = height) := by
  refine ⟨?_, fun a b => count_blit_blitEvents f tile_x tile_y a b, ?_⟩
  · unfold post_render_tile
    simp only [blit_tile_trace, List.append_assoc]
    rfl
  · intro x y width height
    constructor <;> simp [make_rect]

theorem post_render_tile_rendered {σ : Type} (f : Frame σ) (tile_x tile_y : Nat)
    (st : CBState) :
    (post_render_tile f tile_x tile_y st).rendered = st.rendered + 1 := by
  unfold post_render_tile
  simp only [blit_tile_rendered]

/-- Claim C4: each post_render_tile call increments the shared
rendered-tile counter by exactly one, while pre_render, post_render and
blit_tile leave it unchanged; hence n sequential post_render_tile calls
add exactly n to the counter. -/
theorem rendered_tile_count_spec (σ : Type) :
    (∀ (f : Frame σ) (tile_x tile_y : Nat) (st : CBState),
      (post_render_tile f tile_x tile_y st).rendered = st.rendered + 1)
    ∧ (∀ (st : CBState) (x y width height : Nat),
        (pre_render st x y width height).rendered = st.rendered)
    ∧ (∀ (f : Frame σ) (st : CBState), (post_render f st).rendered = st.rendered)
    ∧ (∀ (f : Frame σ) (tile_x tile_y : Nat) (st : CBState),
        (blit_tile f tile_x tile_y st).rendered = st.rendered)
    ∧ (∀ (calls : List (Frame σ × Nat × Nat)) (st : CBState),
        (calls.foldl (fun s c => post_render_tile c.1 c.2.1 c.2.2 s) st).rendered =
          st.rendered + calls.length) := by
  refine ⟨post_render_tile_rendered, ?_, post_render_rendered, blit_tile_rendered, ?_⟩
  · intro st x y width height
    unfold pre_render
    exact draw_bracket_rendered st x y width height 5 BracketColor
  · intro calls
    induction calls with
    | nil => intro st; rfl
    | cons c l ih =>
      intro st
      rw [List.foldl_cons, ih, post_render_tile_rendered, List.length_cons]
      omega

/-- Claim C6: the dialog's command handler manages exactly one numeric
parameter: when the low-order word of wParam is the pixel-samples edit
control id, on_command stores the edit's integer value into the
internal settings' m_pixel_samples and returns TRUE; for every other
control id it returns FALSE and leaves the internal settings (and the
whole Impl) unchanged. -/
theorem on_command_spec (impl : Impl) (editVal wParam : Nat) :
    (LOWORD wParam = IDC_TEXT_PIXELSAMPLES →
      on_command impl editVal wParam =
        ({ impl with m_settings := { m_pixel_samples := editVal } }, true))
    ∧ (LOWORD wParam ≠ IDC_TEXT_PIXELSAMPLES →
      on_command impl editVal wParam = (impl, false)) := by
  constructor <;> intro h <;> simp [on_command, h]

/-- Claim C7: constructing the dialog Impl adds exactly one rollup page,
titled Sampling, to the host; destroying it releases the edit and
spinner controls and deletes exactly that page, so a
construct / create_controls / destruct cycle restores the host's rollup
pages and live-control counts.  The hypothesis is the host invariant
that all existing page handles differ from the fresh one it hands
out. -/
theorem rollup_page_lifecycle (host : HostUI) (settings : RendererSettings)
    (sp0 : SpinnerControl)
    (hfresh : ∀ p ∈ host.pages, p.1 ≠ host.nextHWND) :
    (Impl.construct host settings).2.pages =
      host.pages ++ [(host.nextHWND, samplingTitle)]
    ∧ (Impl.destruct (Impl.construct host settings).1
        (create_controls (Impl.construct host settings).2 settings sp0).1).pages =
      host.pages
    ∧ (Impl.destruct (Impl.construct host settings).1
        (create_controls (Impl.construct host settings).2 settings sp0).1).liveEdits =
      host.liveEdits
    ∧ (Impl.destruct (Impl.construct host settings).1
        (create_controls (Impl.construct host settings).2 settings sp0).1).liveSpinners =
      host.liveSpinners := by
  refine ⟨rfl, ?_, rfl, rfl⟩
  simp only [Impl.construct, AddRollupPage, Impl.destruct, destroy_controls,
    create_controls, GetICustEdit, GetISpinner, ReleaseICustEdit, ReleaseISpinner,
    DeleteRollupPage, List.filter_append]
  have h1 : List.filter (fun p => p.1 != host.nextHWND) host.pages = host.pages :=
    List.filter_eq_self.mpr (fun p hp => bne_iff_ne.mpr (hfresh p hp))
  have h2 : List.filter (fun p => p.1 != host.nextHWND)
      [(host.nextHWND, samplingTitle)] = [] := by
    simp
  rw [h1, h2, List.append_nil]

/-- Claim C8: WM_COMMAND edits modify only the dialog's internal copy of
the settings: after any command sequence the caller's RendererSettings
object still holds its original value, and AcceptParams — and only
AcceptParams — copies the internal settings over it, leaving the
internal copy itself untouched. -/
theorem dlg_settings_isolation (settings : RendererSettings) (rollup : Nat)
    (cmds : List (Nat × Nat)) :
    (Dlg.run (Dlg.construct settings rollup) cmds).m_settings_caller = settings
    ∧ (AcceptParams (Dlg.run (Dlg.construct settings rollup) cmds)).m_settings_caller =
        (Dlg.run (Dlg.construct settings rollup) cmds).impl.m_settings
    ∧ (AcceptParams (Dlg.run (Dlg.construct settings rollup) cmds)).impl =
        (Dlg.run (Dlg.construct settings rollup) cmds).impl := by
  have hrun : ∀ (l : List (Nat × Nat)) (d : Dlg),
      (Dlg.run d l).m_settings_caller = d.m_settings_caller := by
    intro l
    induction l with
    | nil => intro d; rfl
    | cons c l ih => intro d; rw [Dlg.run, List.foldl_cons]; exact ih (Dlg.command d c.1 c.2)
  exact ⟨hrun cmds (Dlg.construct settings rollup), rfl, rfl⟩

/-- Claim C9: create_controls leaves the pixel-samples spinner with the
inclusive limits 1 to 1000000, the reset value
RendererSettings::defaults().m_pixel_samples, a link to the
pixel-samples edit box as an integer field, and the current settings'
m_pixel_samples as displayed value. -/
theorem create_controls_spec (host : HostUI) (settings : RendererSettings)
    (sp0 : SpinnerControl) :
    (create_controls host settings sp0).2.limitMin = 1
    ∧ (create_controls host settings sp0).2.limitMax = 1000000
    ∧ (create_controls host settings sp0).2.resetValue =
        (RendererSettings.defaults.m_pixel_samples : Int)
    ∧ (create_controls host settings sp0).2.linkedEdit =
        some (IDC_TEXT_PIXELSAMPLES, EDITTYPE_INT)
    ∧ (create_controls host settings sp0).2.value = (settings.m_pixel_samples : Int) := by
  refine ⟨rfl, rfl, rfl, rfl, rfl⟩

/-
Concrete instances used by the witnesses.
-/

/-- A concrete 2 x 1 source tile over integer sample values. -/
def tileW : SrcTile Nat :=
  { width := 2, height := 1, pixel := fun x y => x + 10 * y }

/-- A concrete frame: 4 x 2 canvas, 2 x 1 tiles, 2 x 2 tile grid, with
concrete stand-ins for the conversion and color-space routines. -/
def frameW : Frame Nat :=
  { props :=
      { m_canvas_width := 4, m_canvas_height := 2, m_tile_width := 2, m_tile_height := 1
        m_tile_count_x := 2, m_tile_count_y := 2, m_channel_count := 4 }
    tile := fun _ _ => tileW
    convertToFloat := fun n => ⟨n, 0, 0, 1⟩
    toOutputColorSpace := fun c => ⟨c.r + 1, c.g, c.b, c.a⟩ }

/-- A concrete starting state with a black bitmap and empty trace. -/
def stW : CBState :=
  { bitmap := fun _ => ⟨0, 0, 0, 0⟩, rendered := 0, trace := [] }

def implW : Impl := { m_settings := { m_pixel_samples := 4 }, m_rollup_sampling := 7 }

def hostW : HostUI := { pages := [], nextHWND := 5, liveEdits := 2, liveSpinners := 3 }

def spW : SpinnerControl :=
  { linkedEdit := none, limitMin := 0, limitMax := 0, resetValue := 0, value := 0 }

def settingsW : RendererSettings := { m_pixel_samples := 4 }

theorem blit_tile_pixels_witness :
    (blit_tile frameW 1 0 stW).bitmap
        (((1 * frameW.props.m_tile_width + 1 : Nat) : Int),
          ((0 * frameW.props.m_tile_height + 0 : Nat) : Int)) =
      frameW.toOutputColorSpace (frameW.convertToFloat ((frameW.tile 1 0).pixel 1 0))
    ∧ (blit_tile frameW 1 0 stW).bitmap (50, 50) = stW.bitmap (50, 50) := by
  constructor
  · exact (blit_tile_pixels frameW 1 0 stW).1 1 0 (by decide) (by decide)
  · refine (blit_tile_pixels frameW 1 0 stW).2 (50, 50) ?_
    intro x y hx hy he
    have hx2 : x < 2 := hx
    have hy2 : y < 1 := hy
    rw [Prod.mk.injEq] at he
    have h1 : (50 : Int) = ((1 * 2 + x : Nat) : Int) := he.1
    omega

theorem post_render_blits_witness :
    (post_render frameW stW).trace = stW.trace ++ gridBlitEvents frameW ++ [Event.refreshFull]
    ∧ (gridBlitEvents frameW).count (Event.blit 0 1) = 1
    ∧ (gridBlitEvents frameW).count (Event.blit 2 0) = 0 :=
  ⟨(post_render_blits frameW stW).1,
   ((post_render_blits frameW stW).2.1 0 1).trans (by decide),
   ((post_render_blits frameW stW).2.1 2 0).trans (by decide)⟩

theorem pre_render_bracket_witness :
    (pre_render stW 10 20 3 2).trace =
      stW.trace ++ bracketEvents 10 20 3 2 5 BracketColor
        ++ [Event.refreshRect (make_rect 10 20 3 2)]
    ∧ (Event.putPixel 11 20 BracketColor ∈ bracketEvents 10 20 3 2 5 BracketColor ↔
        (BracketColor = BracketColor ∧ bracketPred 10 20 3 2 11 20)) :=
  ⟨(pre_render_bracket stW 10 20 3 2 (by decide) (by decide)).1,
   (pre_render_bracket stW 10 20 3 2 (by decide) (by decide)).2 11 20 BracketColor⟩

theorem on_command_spec_witness :
    on_command implW 25 1001 = ({ implW with m_settings := { m_pixel_samples := 25 } }, true)
    ∧ on_command implW 25 3 = (implW, false) :=
  ⟨(on_command_spec implW 25 1001).1 (by decide),
   (on_command_spec implW 25 3).2 (by decide)⟩

theorem rollup_page_lifecycle_witness :
    (Impl.construct hostW settingsW).2.pages =
      hostW.pages ++ [(hostW.nextHWND, samplingTitle)]
    ∧ (Impl.destruct (Impl.construct hostW settingsW).1
        (create_controls (Impl.construct hostW settingsW).2 settingsW spW).1).pages =
      hostW.pages
    ∧ (Impl.destruct (Impl.construct hostW settingsW).1
        (create_controls (Impl.construct hostW settingsW).2 settingsW spW).1).liveEdits =
      hostW.liveEdits
    ∧ (Impl.destruct (Impl.construct hostW settingsW).1
        (create_controls (Impl.construct hostW settingsW).2 settingsW spW).1).liveSpinners =
      hostW.liveSpinners :=
  rollup_page_lifecycle hostW settingsW spW (by simp [hostW])

theorem draw_line_pixels_witness :
    (draw_hline stW 3 5 (-4) BracketColor).trace =
      stW.trace ++ (List.range ((-4 : Int)).natAbs).map
        (fun k : Nat => Event.putPixel (3 + lineStep (-4) * (k : Int)) 5 BracketColor)
    ∧ (draw_vline stW 3 5 (-4) BracketColor).trace =
      stW.trace ++ (List.range ((-4 : Int)).natAbs).map
        (fun k : Nat => Event.putPixel 3 (5 + lineStep (-4) * (k : Int)) BracketColor)
    ∧ ((List.range ((-4 : Int)).natAbs).map
        (fun k : Nat => (3 : Int) + lineStep (-4) * (k : Int))).Nodup
    ∧ (3 : Int) + lineStep (-4) * ((((-4 : Int)).natAbs : Int) - 1) =
        3 + (-4) - lineStep (-4) :=
  ⟨(draw_line_pixels stW stW 3 5 (-4) BracketColor).1,
   (draw_line_pixels stW stW 3 5 (-4) BracketColor).2.1,
   (draw_line_pixels stW stW 3 5 (-4) BracketColor).2.2.1,
   (draw_line_pixels stW stW 3 5 (-4) BracketColor).2.2.2 (by decide)⟩
